import Mathlib

/-!
Shallow embedding of the 3060-deals ingestion and price-refresh pipeline.

Sources embedded:
- `src/app/api/admin/ingest/route.ts` (batch ingest route: `normalizeCoolerType`,
  `mapFirecrawlToProduct`, `waitForFirecrawlJob`, `POST`), and the legacy
  single-URL ingest route in the same file (its `normalizeCoolerType` variant,
  embedded here as `normalizeCoolerTypeV1`).
- `src/app/api/admin/products/update-prices/route.ts` (per-record refresh step).
- `src/scripts/update-prices.js` (per-record refresh step of the daily script).

Modelling conventions: JavaScript numbers are `Rat`, with `Option Rat` where a
value can be `NaN` (`none` plays the role of `NaN`, which compares unequal to
everything under `!==`); timestamps are opaque strings; remote calls are
parameters of an environment record; the WHATWG URL parser is modelled by
`parseHostname` for the `scheme://host...` shapes the routes handle, with
`none` standing for the `TypeError` thrown by `new URL` on an unparseable
string.
-/

deriving instance DecidableEq for Except

/-- Raw extracted record shape returned by the extraction service for the
batch ingest route (`ExtractedProduct` in `route.ts`). -/
structure ExtractedProduct where
  brand : String
  is_oc : Bool
  price : Rat
  family : String
  in_stock : Bool
  cooler_type : String
  product_title : String
  memory_size_gb : Rat
  special_features : String
deriving DecidableEq, Repr

/-- An entry of the extraction result array: `none` models a `null`,
`undefined` or non-object entry (the `!extracted || typeof extracted !==
'object'` check in the mapping loop). -/
abbrev RawRecord := Option ExtractedProduct

/-- Row built by `mapFirecrawlToProduct` and handed to the bulk insert. -/
structure ProductRecord where
  brand : String
  is_oc : Bool
  price : Rat
  family : String
  in_stock : Bool
  cooler_type : String
  product_title : String
  memory_size_gb : Rat
  special_features : String
  retailer : String
  url : String
  fetched_at : String
deriving DecidableEq, Repr

/-- ASCII lowercasing of one character, the fragment of JavaScript
`toLowerCase` exercised by the routes. -/
def charToLower (c : Char) : Char :=
  if 65 ≤ c.toNat ∧ c.toNat ≤ 90 then Char.ofNat (c.toNat + 32) else c

/-- ASCII lowercasing of a string (model of JavaScript `toLowerCase`). -/
def toLowerModel (s : String) : String :=
  ⟨s.data.map charToLower⟩

/-- Whether `pat` is a prefix of `s`, character by character. -/
def listStartsWith : List Char → List Char → Bool
  | _, [] => true
  | [], _ :: _ => false
  | c :: cs, p :: ps => c = p && listStartsWith cs ps

/-- Worker for splitting on a non-empty pattern: `skip` counts pattern
characters still to be consumed after a cut, `acc` holds the current
segment in reverse. -/
def splitOnCharsGo (pat : List Char) : List Char → Nat → List Char → List (List Char)
  | [], _, acc => [acc.reverse]
  | _ :: cs, skip + 1, acc => splitOnCharsGo pat cs skip acc
  | c :: cs, 0, acc =>
    if listStartsWith (c :: cs) pat then
      acc.reverse :: splitOnCharsGo pat cs (pat.length - 1) []
    else splitOnCharsGo pat cs 0 (c :: acc)

/-- Split a string at the non-overlapping left-to-right occurrences of
`pat`, with the semantics of `String.splitOn` (an empty pattern yields the
whole string). -/
def stringSplitOn (s pat : String) : List String :=
  if pat.data = [] then [s]
  else (splitOnCharsGo pat.data s.data 0 []).map (fun l => ⟨l⟩)

/-- The batch ingest route's `normalizeCoolerType` (lines 51-57): lowercase
`"dual"` maps to `"Dual"`, lowercase `"triple"` to `"Triple"`, the empty
string to itself, anything else passes through unchanged. -/
def normalizeCoolerType (coolerType : String) : String :=
  if coolerType = "" then ""
  else
    let normalized := toLowerModel coolerType
    if normalized = "dual" then "Dual"
    else if normalized = "triple" then "Triple"
    else coolerType

/-- The legacy single-URL ingest route's `normalizeCoolerType` variant
(lines 413-419 of the same file): additionally maps `"2"` to `"Dual"` and
`"3"` to `"Triple"`. -/
def normalizeCoolerTypeV1 (coolerType : String) : String :=
  if coolerType = "" then ""
  else
    let normalized := toLowerModel coolerType
    if normalized = "dual" ∨ normalized = "2" then "Dual"
    else if normalized = "triple" ∨ normalized = "3" then "Triple"
    else coolerType

/-- Replace the first occurrence of `pat` in `s` — the semantics of
JavaScript `String.prototype.replace` with a string pattern, used by the
retailer derivation on the hostname; Lean's `String.replace` replaces all
occurrences, so it is not used here. -/
def replaceFirst (s pat : String) : String :=
  match stringSplitOn s pat with
  | [] => s
  | [_] => s
  | p :: ps => p ++ String.intercalate pat ps

/-- Model of `new URL(url).hostname` for the URL shapes the routes handle:
the input must contain `"://"` with a non-empty scheme, the authority runs to
the first `/`, a userinfo part before `@` is dropped, a `:port` suffix is
dropped, and the host is lowercased. `none` models the `TypeError` that
`new URL` throws on a string it cannot parse. -/
def parseHostname (url : String) : Option String :=
  match stringSplitOn url "://" with
  | scheme :: rest :: _ =>
    if scheme = "" then none
    else
      let authority := (stringSplitOn rest "/").headD rest
      let hostPort := (stringSplitOn authority "@").getLastD authority
      let host := (stringSplitOn hostPort ":").headD hostPort
      some (toLowerModel host)
  | _ => none

/-- The retailer expression of `mapFirecrawlToProduct`:
`new URL(url).hostname?.replace('www.', '') || 'unknown'`. The `Except`
error is the `TypeError` thrown by `new URL` on an unparseable input; the
`"unknown"` fallback fires only when the replaced hostname is the empty
string (falsy), not on a parse failure. -/
def deriveRetailer (url : String) : Except String String :=
  match parseHostname url with
  | none => Except.error "Invalid URL"
  | some h =>
    let r := replaceFirst h "www."
    Except.ok (if r = "" then "unknown" else r)

/-- `mapFirecrawlToProduct` (lines 33-49): copies the extracted fields,
normalizes `cooler_type`, derives `retailer` from the URL and stamps
`fetched_at` with the current time `now`. An `Except.error` models the
exception propagating out when `new URL url` throws. -/
def mapFirecrawlToProduct (extracted : ExtractedProduct) (url : String)
    (now : String) : Except String ProductRecord :=
  match deriveRetailer url with
  | Except.error m => Except.error m
  | Except.ok ret =>
    Except.ok
      { brand := extracted.brand
        is_oc := extracted.is_oc
        price := extracted.price
        family := extracted.family
        in_stock := extracted.in_stock
        cooler_type := normalizeCoolerType extracted.cooler_type
        product_title := extracted.product_title
        memory_size_gb := extracted.memory_size_gb
        special_features := extracted.special_features
        retailer := ret
        url := url
        fetched_at := now }

/-- Terminal and non-terminal states of a Firecrawl extraction job. -/
inductive JobState
  | processing
  | completed
  | failed
  | cancelled
deriving DecidableEq, Repr

/-- Payload of a completed job: the service may return a single object or an
array (`Array.isArray(status.data) ? status.data : [status.data]`). -/
abbrev JobData := Sum RawRecord (List RawRecord)

/-- Normalization of a single-object result into a one-element list, as done
on receipt of a completed status. -/
def toDataArray : JobData → List RawRecord
  | Sum.inl r => [r]
  | Sum.inr l => l

/-- Parsed body of a status poll (`FirecrawlJobStatus` in `route.ts`);
`data = none` models an absent/null `data` field. -/
structure FirecrawlJobStatus where
  success : Bool
  status : JobState
  data : Option JobData
deriving DecidableEq, Repr

/-- Outcome of one status fetch: the body failed to parse, the HTTP response
was not ok (with its status code), or a parsed status body. -/
inductive PollResult
  | parseFail
  | httpErr (code : Nat)
  | ok (st : FirecrawlJobStatus)
deriving DecidableEq, Repr

/-- Errors thrown by `waitForFirecrawlJob`. -/
inductive JobError
  | invalidResponse
  | creditsExhausted
  | statusCheckFailed (code : Nat)
  | emptyResult
  | jobFailed
  | jobCancelled
  | timedOut
deriving DecidableEq, Repr

/-- The exact message strings thrown by `waitForFirecrawlJob` (the timeout
message really says 5 minutes in the source even though the configured
timeout is 10 minutes). -/
def jobErrorMessage : JobError → String
  | JobError.invalidResponse => "Invalid response from Firecrawl status endpoint"
  | JobError.creditsExhausted => "Firecrawl account ran out of credits during processing"
  | JobError.statusCheckFailed code => "Firecrawl status check failed: " ++ toString code
  | JobError.emptyResult => "Job completed but no data returned"
  | JobError.jobFailed => "Firecrawl extraction job failed"
  | JobError.jobCancelled => "Firecrawl extraction job was cancelled"
  | JobError.timedOut => "Firecrawl job timed out after 5 minutes"

/-- `FIRECRAWL_POLL_INTERVAL` (ms). -/
def FIRECRAWL_POLL_INTERVAL : Nat := 2000

/-- `FIRECRAWL_POLL_TIMEOUT` (ms). -/
def FIRECRAWL_POLL_TIMEOUT : Nat := 600000

/-- Number of loop iterations the `while (Date.now() - startTime <
FIRECRAWL_POLL_TIMEOUT)` loop can perform when each iteration advances the
clock by one poll interval (network time idealized to zero): the iterations
run at elapsed times 0, I, 2I, ... and stop at the first multiple of I that
reaches the timeout. -/
def maxPolls : Nat :=
  (FIRECRAWL_POLL_TIMEOUT + FIRECRAWL_POLL_INTERVAL - 1) / FIRECRAWL_POLL_INTERVAL

/-- Body of `waitForFirecrawlJob`'s polling loop. `fuel` counts the
iterations still allowed by the timeout check; `iter` is the number of
completed wait intervals so far (also the index of the poll being made).
Each iteration fetches the status, fails on parse errors or non-ok HTTP
responses, returns the (array-normalized) data on `completed`, throws on
`failed`/`cancelled`, and otherwise waits one interval and loops. On success
the returned pair carries the payload and the number of wait intervals that
elapsed before it. -/
def waitGo (poll : Nat → PollResult) : Nat → Nat → Except JobError (List RawRecord × Nat)
  | 0, _ => Except.error JobError.timedOut
  | fuel + 1, iter =>
    match poll iter with
    | PollResult.parseFail => Except.error JobError.invalidResponse
    | PollResult.httpErr code =>
      Except.error
        (if code = 402 then JobError.creditsExhausted
         else JobError.statusCheckFailed code)
    | PollResult.ok st =>
      match st.status with
      | JobState.completed =>
        match st.data with
        | none => Except.error JobError.emptyResult
        | some d => Except.ok (toDataArray d, iter)
      | JobState.failed => Except.error JobError.jobFailed
      | JobState.cancelled => Except.error JobError.jobCancelled
      | JobState.processing => waitGo poll fuel (iter + 1)

/-- `waitForFirecrawlJob` (lines 59-112): poll until a terminal state or
until the elapsed time reaches the configured timeout. -/
def waitForFirecrawlJob (poll : Nat → PollResult) :
    Except JobError (List RawRecord × Nat) :=
  waitGo poll maxPolls 0

/-- The URL assigned to record `i` of the extraction result:
`newUrls[i] || newUrls[0]` — an out-of-bounds index (JS `undefined`) or an
empty string at `i` falls back to the first submitted URL. -/
def jsIndexOr (xs : List String) (i : Nat) : String :=
  match xs.get? i with
  | some u => if u = "" then xs.headD "" else u
  | none => xs.headD ""

/-- The mapping loop of the ingest `POST` (lines 314-332), indexed from `i`:
a `none` record appends the invalid-format message; a valid record is mapped
via `mapFirecrawlToProduct` against `jsIndexOr newUrls i`, appending the
product on success and a processing-error message if the mapping throws.
Returns (products, errors) in iteration order. -/
def processGo (newUrls : List String) (now : String) :
    List RawRecord → Nat → List ProductRecord × List String
  | [], _ => ([], [])
  | r :: rs, i =>
    let rest := processGo newUrls now rs (i + 1)
    match r with
    | none => (rest.1, "Invalid data format received from Firecrawl" :: rest.2)
    | some ex =>
      match mapFirecrawlToProduct ex (jsIndexOr newUrls i) now with
      | Except.ok p => (p :: rest.1, rest.2)
      | Except.error m =>
        (rest.1, ("Error processing extracted data: " ++ m) :: rest.2)

/-- The full mapping loop, starting at index 0. -/
def processRecords (newUrls : List String) (now : String)
    (records : List RawRecord) : List ProductRecord × List String :=
  processGo newUrls now records 0

/-- Every valid (non-`none`) record from index `i` on maps without throwing
(its assigned URL parses). -/
def mapAllOk (newUrls : List String) (now : String) :
    List RawRecord → Nat → Bool
  | [], _ => true
  | none :: rs, i => mapAllOk newUrls now rs (i + 1)
  | some ex :: rs, i =>
    (mapFirecrawlToProduct ex (jsIndexOr newUrls i) now).isOk
      && mapAllOk newUrls now rs (i + 1)

/-- Outcome of the one extraction-job submission a `POST` run makes. -/
inductive SubmitResult
  | parseFail
  | httpErr (code : Nat)
  | ok (success : Bool) (id : String)
deriving DecidableEq, Repr

/-- Environment of one ingest `POST` run: the configuration and the outcome
of each remote interaction (duplicate-check query, job submission, status
polls, bulk insert), plus the timestamp used for `fetched_at`. -/
structure IngestEnv where
  apiKeyConfigured : Bool
  storeUrls : List String
  queryError : Option String
  submitResult : SubmitResult
  poll : Nat → PollResult
  insertError : Option String
  now : String

/-- The JSON body of the ingest response, with `none` for absent fields. -/
structure IngestResponse where
  success : Bool
  httpStatus : Nat
  message : String
  productsAdded : Option Nat
  duplicateCount : Option Nat
  duplicateUrls : Option (List String)
  errors : Option (List String)
deriving DecidableEq, Repr

/-- Observable outcome of one ingest `POST` run: the response, whether the
extraction job service was contacted, and the batch handed to the bulk
insert (when one was). -/
structure IngestRun where
  response : IngestResponse
  submitCalled : Bool
  insertedBatch : Option (List ProductRecord)
deriving Repr

/-- A response carrying only a success flag and a message. -/
def errorResponse (code : Nat) (msg : String) : IngestResponse :=
  { success := false
    httpStatus := code
    message := msg
    productsAdded := none
    duplicateCount := none
    duplicateUrls := none
    errors := none }

/-- The user-facing message for a failed submission HTTP response. -/
def submitErrorMessage (code : Nat) : String :=
  if code = 402 then
    "Firecrawl account has insufficient credits. Please check your Firecrawl API key and account balance."
  else if code = 401 then "Firecrawl API key is invalid or expired."
  else "Firecrawl error: " ++ toString code

/-- URLs of the input that the duplicate check found in the store. -/
def ingestDuplicateUrls (env : IngestEnv) (urls : List String) : List String :=
  urls.filter (fun u => env.storeUrls.contains u)

/-- URLs of the input that are not yet in the store, input order preserved. -/
def ingestNewUrls (env : IngestEnv) (urls : List String) : List String :=
  urls.filter (fun u => !(env.storeUrls.contains u))

/-- The ingest route's `POST` handler (lines 114-396): configuration check,
input validation, duplicate check against the store, all-duplicate
short-circuit, job submission, polling, per-record mapping with error
accumulation, and one bulk insert with partial-success reporting. -/
def ingestPOST (env : IngestEnv) (urls : List String) : IngestRun :=
  if !env.apiKeyConfigured then
    { response := errorResponse 500 "Firecrawl API key not configured"
      submitCalled := false
      insertedBatch := none }
  else if urls.isEmpty then
    { response := errorResponse 400 "No URLs provided"
      submitCalled := false
      insertedBatch := none }
  else
    match env.queryError with
    | some m =>
      { response :=
          errorResponse 500 ("Database error while checking for duplicates: " ++ m)
        submitCalled := false
        insertedBatch := none }
    | none =>
      let duplicateUrls := ingestDuplicateUrls env urls
      let newUrls := ingestNewUrls env urls
      if newUrls.isEmpty then
        { response :=
            { success := false
              httpStatus := 400
              message :=
                "All " ++ toString urls.length ++ " URL(s) already exist in the database"
              productsAdded := some 0
              duplicateCount := some duplicateUrls.length
              duplicateUrls := some duplicateUrls
              errors := none }
          submitCalled := false
          insertedBatch := none }
      else
        match env.submitResult with
        | SubmitResult.parseFail =>
          { response := errorResponse 500 "Failed to parse Firecrawl response"
            submitCalled := true
            insertedBatch := none }
        | SubmitResult.httpErr code =>
          { response := errorResponse code (submitErrorMessage code)
            submitCalled := true
            insertedBatch := none }
        | SubmitResult.ok ok id =>
          if !ok ∨ id = "" then
            { response := errorResponse 400 "Firecrawl failed to create extraction job"
              submitCalled := true
              insertedBatch := none }
          else
            match waitForFirecrawlJob env.poll with
            | Except.error e =>
              { response :=
                  errorResponse 500 ("Extraction job error: " ++ jobErrorMessage e)
                submitCalled := true
                insertedBatch := none }
            | Except.ok (extractedData, _) =>
              let mapped := processRecords newUrls env.now extractedData
              let products := mapped.1
              let errs := mapped.2
              if products.isEmpty then
                { response :=
                    { success := false
                      httpStatus := 400
                      message := "No products could be extracted from the provided URLs"
                      productsAdded := none
                      duplicateCount := none
                      duplicateUrls := none
                      errors := some errs }
                  submitCalled := true
                  insertedBatch := none }
              else
                match env.insertError with
                | some m =>
                  { response :=
                      { success := false
                        httpStatus := 500
                        message := "Database error: " ++ m
                        productsAdded := none
                        duplicateCount := none
                        duplicateUrls := none
                        errors := some (m :: errs) }
                    submitCalled := true
                    insertedBatch := some products }
                | none =>
                  { response :=
                      { success := true
                        httpStatus := 200
                        message :=
                          "Successfully added " ++ toString products.length
                            ++ " product(s) to the database"
                            ++ (if duplicateUrls.isEmpty then ""
                                else
                                  " (" ++ toString duplicateUrls.length
                                    ++ " duplicate URL(s) were skipped)")
                        productsAdded := some products.length
                        duplicateCount :=
                          if duplicateUrls.isEmpty then none
                          else some duplicateUrls.length
                        duplicateUrls :=
                          if duplicateUrls.isEmpty then none else some duplicateUrls
                        errors := if errs.isEmpty then none else some errs }
                    submitCalled := true
                    insertedBatch := some products }

/-- Whitespace test for the trim model (space, tab, newline, carriage
return — the characters relevant to scraped stock strings). -/
def isSpaceChar (c : Char) : Bool :=
  c = ' ' ∨ c = '\t' ∨ c = '\n' ∨ c = '\r'

/-- Model of JavaScript `String.prototype.trim`: strip leading and trailing
whitespace. -/
def jsTrim (s : String) : String :=
  ⟨((s.data.dropWhile isSpaceChar).reverse.dropWhile isSpaceChar).reverse⟩

/-- JavaScript strict inequality `a !== b` on numbers where either side may
be `NaN` (`none`): `NaN` is unequal to everything, including itself. -/
def jsNumNeq (a b : Option Rat) : Bool :=
  match a, b with
  | some x, some y => decide (x ≠ y)
  | _, _ => true

/-- Stored row as selected by the admin update-prices route
(`id, url, price_usd, stock_status`), extended with the two timestamp
columns so frame effects on them can be stated. `price_usd` is an
`Option Rat` because a JavaScript number can be `NaN`. -/
structure RouteRow where
  id : String
  url : String
  price_usd : Option Rat
  stock_status : String
  fetched_at : String
  updated_at : String
deriving DecidableEq, Repr

/-- Outcome of the per-record scrape in the admin update-prices route:
non-ok HTTP response, a thrown error (e.g. missing body fields), or scraped
fields (`price_usd` is `none` when `parseFloat` yields `NaN`,
`stock_status` is `none` when the field is absent). -/
inductive RouteScrape
  | httpFail
  | threw (msg : String)
  | ok (price_usd : Option Rat) (stock_status : Option String)
deriving DecidableEq, Repr

/-- One iteration of the update loop in
`src/app/api/admin/products/update-prices/route.ts` (lines 59-105): compute
`newPrice` and `newStockStatus` (the trimmed scraped status, falling back to
the stored one when absent or blank), update only when one of them differs
from the stored value — the update writes `price_usd`, `stock_status` and
`updated_at` — and record errors otherwise. Returns the resulting row, the
number of update calls issued, and whether an error was recorded. -/
def updatePricesRouteStep (scrape : RouteScrape) (row : RouteRow)
    (now : String) (updateError : Option String) : RouteRow × Nat × Bool :=
  match scrape with
  | RouteScrape.httpFail => (row, 0, true)
  | RouteScrape.threw _ => (row, 0, true)
  | RouteScrape.ok scrapedPrice scrapedStock =>
    let newPrice := scrapedPrice
    let newStockStatus :=
      match scrapedStock with
      | some s => if jsTrim s = "" then row.stock_status else jsTrim s
      | none => row.stock_status
    if jsNumNeq newPrice row.price_usd ∨ newStockStatus ≠ row.stock_status then
      match updateError with
      | some _ => (row, 1, true)
      | none =>
        ({ row with
            price_usd := newPrice
            stock_status := newStockStatus
            updated_at := now }, 1, false)
    else (row, 0, false)

/-- Stored row as selected by the daily script
(`id, url, price, in_stock, brand, product_title`), extended with the two
timestamp columns so frame effects on them can be stated. -/
structure ScriptRow where
  id : String
  url : String
  price : Rat
  in_stock : Bool
  fetched_at : String
  updated_at : String
deriving DecidableEq, Repr

/-- One iteration of the update loop in `src/scripts/update-prices.js`
(lines 118-170): `extractPriceFromUrl` either fails (`none`) or yields a
price and stock flag; when neither differs from the stored values no update
is issued; otherwise one update is issued writing `price`, `in_stock` and
`fetched_at` (not `updated_at`). Returns the resulting row, the number of
update calls issued, and whether an error was counted. -/
def updatePricesScriptStep (extracted : Option (Rat × Bool)) (row : ScriptRow)
    (now : String) (updateError : Option String) : ScriptRow × Nat × Bool :=
  match extracted with
  | none => (row, 0, true)
  | some (newPrice, newInStock) =>
    let priceChanged := newPrice ≠ row.price
    let stockChanged := newInStock ≠ row.in_stock
    if ¬priceChanged ∧ ¬stockChanged then (row, 0, false)
    else
      match updateError with
      | some _ => (row, 1, true)
      | none =>
        ({ row with
            price := newPrice
            in_stock := newInStock
            fetched_at := now }, 1, false)

/-! ### Concrete sample data used by witnesses and counterexamples -/

/-- A well-formed extracted record. -/
def exSample : ExtractedProduct :=
  { brand := "MSI"
    is_oc := true
    price := 329
    family := "Ventus"
    in_stock := true
    cooler_type := "Dual"
    product_title := "MSI RTX 3060 Ventus 2X"
    memory_size_gb := 12
    special_features := "None" }

/-- A second well-formed extracted record. -/
def exSampleB : ExtractedProduct :=
  { brand := "GIGABYTE"
    is_oc := false
    price := 299
    family := "Eagle"
    in_stock := true
    cooler_type := "TRIPLE"
    product_title := "GIGABYTE RTX 3060 Eagle"
    memory_size_gb := 12
    special_features := "Windforce Cooling" }

/-- An extracted record whose cooler description is free text outside the
canonical vocabulary. -/
def exSampleQuad : ExtractedProduct :=
  { brand := "ZOTAC"
    is_oc := false
    price := 289
    family := "Twin Edge"
    in_stock := false
    cooler_type := "Quad Fan"
    product_title := "ZOTAC RTX 3060 Twin Edge"
    memory_size_gb := 12
    special_features := "IceStorm 2.0" }

/-- A status poll sequence that is processing twice and then completed with
a two-element payload normalized from an array. -/
def pollSeqPPC : Nat → PollResult := fun i =>
  if i < 2 then PollResult.ok ⟨true, JobState.processing, none⟩
  else
    PollResult.ok
      ⟨true, JobState.completed, some (Sum.inr [some exSample, some exSampleB])⟩

/-- A status poll sequence that never leaves `processing`. -/
def pollSeqForever : Nat → PollResult :=
  fun _ => PollResult.ok ⟨true, JobState.processing, none⟩

/-- Environment for an all-duplicate ingest run. -/
def envAllDup : IngestEnv :=
  { apiKeyConfigured := true
    storeUrls := ["https://www.newegg.com/p/1", "https://www.newegg.com/p/2"]
    queryError := none
    submitResult := SubmitResult.parseFail
    poll := pollSeqForever
    insertError := none
    now := "2026-10-11T00:00:00Z" }

/-- Environment for a partial-success ingest run: three submitted URLs,
extraction returns three records of which the second is malformed. -/
def envPartial : IngestEnv :=
  { apiKeyConfigured := true
    storeUrls := []
    queryError := none
    submitResult := SubmitResult.ok true "job-1"
    poll := fun _ =>
      PollResult.ok
        ⟨true, JobState.completed,
         some (Sum.inr [some exSample, none, some exSampleB])⟩
    insertError := none
    now := "2026-10-11T00:00:00Z" }

/-- The three input URLs of the partial-success run. -/
def urlsPartial : List String :=
  ["https://www.newegg.com/p/1", "https://www.newegg.com/p/2",
   "https://www.newegg.com/p/3"]

/-- Environment for a short-result ingest run: two submitted URLs but the
extraction job returns a single valid record. -/
def envShort : IngestEnv :=
  { apiKeyConfigured := true
    storeUrls := []
    queryError := none
    submitResult := SubmitResult.ok true "job-2"
    poll := fun _ =>
      PollResult.ok
        ⟨true, JobState.completed, some (Sum.inr [some exSample])⟩
    insertError := none
    now := "2026-10-11T00:00:00Z" }

/-- The two input URLs of the short-result run. -/
def urlsShort : List String :=
  ["https://www.newegg.com/p/1", "https://www.newegg.com/p/2"]

/-- Environment for a surplus-record ingest run: one submitted URL but the
extraction job returns two valid records. -/
def envSurplus : IngestEnv :=
  { apiKeyConfigured := true
    storeUrls := []
    queryError := none
    submitResult := SubmitResult.ok true "job-3"
    poll := fun _ =>
      PollResult.ok
        ⟨true, JobState.completed,
         some (Sum.inr [some exSample, some exSampleB])⟩
    insertError := none
    now := "2026-10-11T00:00:00Z" }

/-- Environment for an ingest run whose single record carries free-text
cooler description. -/
def envQuad : IngestEnv :=
  { apiKeyConfigured := true
    storeUrls := []
    queryError := none
    submitResult := SubmitResult.ok true "job-4"
    poll := fun _ =>
      PollResult.ok
        ⟨true, JobState.completed, some (Sum.inr [some exSampleQuad])⟩
    insertError := none
    now := "2026-10-11T00:00:00Z" }

/-- A stored row of the admin update-prices route's schema. -/
def rowRouteSample : RouteRow :=
  { id := "p1"
    url := "https://www.newegg.com/p/1"
    price_usd := some 100
    stock_status := "In Stock"
    fetched_at := "T0"
    updated_at := "T0" }

/-- A stored row of the daily script's schema. -/
def rowScriptSample : ScriptRow :=
  { id := "p1"
    url := "https://www.newegg.com/p/1"
    price := 100
    in_stock := true
    fetched_at := "T0"
    updated_at := "T0" }

/-! ### Helper lemmas -/

/-- A non-nil list is not `isEmpty`. -/
theorem isEmpty_false_of_ne_nil {α : Type} {l : List α} (h : l ≠ []) :
    l.isEmpty = false := by
  cases l with
  | nil => exact absurd rfl h
  | cons a t => rfl

theorem except_isOk_exists {ε α : Type} {e : Except ε α} (h : e.isOk = true) :
    ∃ a, e = Except.ok a := by
  cases e with
  | error m => simp [Except.isOk, Except.toBool] at h
  | ok a => exact ⟨a, rfl⟩

theorem mapFirecrawlToProduct_ok_fields {ex : ExtractedProduct} {url now : String}
    {p : ProductRecord} (h : mapFirecrawlToProduct ex url now = Except.ok p) :
    p.fetched_at = now ∧ p.cooler_type = normalizeCoolerType ex.cooler_type
      ∧ p.url = url := by
  unfold mapFirecrawlToProduct at h
  cases hd : deriveRetailer url with
  | error m => rw [hd] at h; exact absurd h (by simp)
  | ok ret =>
    rw [hd] at h
    injection h with h
    subst h
    exact ⟨rfl, rfl, rfl⟩

theorem processGo_length_sum (nu : List String) (now : String) :
    ∀ (rs : List RawRecord) (i : Nat),
      (processGo nu now rs i).1.length + (processGo nu now rs i).2.length
        = rs.length := by
  intro rs
  induction rs with
  | nil => intro i; rfl
  | cons r rs ih =>
    intro i
    cases r with
    | none => simp [processGo]; have := ih (i + 1); omega
    | some ex =>
      cases hm : mapFirecrawlToProduct ex (jsIndexOr nu i) now with
      | ok p => simp [processGo, hm]; have := ih (i + 1); omega
      | error m => simp [processGo, hm]; have := ih (i + 1); omega

theorem processGo_counts (nu : List String) (now : String) :
    ∀ (rs : List RawRecord) (i : Nat),
      mapAllOk nu now rs i = true →
      (processGo nu now rs i).2.length = rs.countP (fun r => r.isNone)
        ∧ (processGo nu now rs i).1.length
            = rs.length - rs.countP (fun r => r.isNone) := by
  intro rs
  induction rs with
  | nil => intro i _; exact ⟨rfl, rfl⟩
  | cons r rs ih =>
    intro i hok
    cases r with
    | none =>
      have h := ih (i + 1) (by simpa [mapAllOk] using hok)
      have hle : rs.countP (fun r => r.isNone) ≤ rs.length := List.countP_le_length _
      simp [processGo, List.countP_cons]
      constructor
      · omega
      · omega
    | some ex =>
      have hok' : (mapFirecrawlToProduct ex (jsIndexOr nu i) now).isOk = true
          ∧ mapAllOk nu now rs (i + 1) = true := by
        simpa [mapAllOk, Bool.and_eq_true] using hok
      obtain ⟨p, hp⟩ := except_isOk_exists hok'.1
      have h := ih (i + 1) hok'.2
      have hle : rs.countP (fun r => r.isNone) ≤ rs.length := List.countP_le_length _
      simp [processGo, hp, List.countP_cons]
      constructor
      · omega
      · omega

theorem processGo_mem (nu : List String) (now : String) :
    ∀ (rs : List RawRecord) (i : Nat) (p : ProductRecord),
      p ∈ (processGo nu now rs i).1 →
      ∃ ex j, mapFirecrawlToProduct ex (jsIndexOr nu j) now = Except.ok p := by
  intro rs
  induction rs with
  | nil => intro i p h; exact absurd h (by simp [processGo])
  | cons r rs ih =>
    intro i p h
    cases r with
    | none =>
      exact ih (i + 1) p (by simpa [processGo] using h)
    | some ex =>
      cases hm : mapFirecrawlToProduct ex (jsIndexOr nu i) now with
      | ok q =>
        rw [show processGo nu now (some ex :: rs) i
              = (q :: (processGo nu now rs (i + 1)).1,
                 (processGo nu now rs (i + 1)).2) from by simp [processGo, hm]] at h
        rcases List.mem_cons.mp h with h1 | h2
        · exact ⟨ex, i, by rw [hm, h1]⟩
        · exact ih (i + 1) p h2
      | error m =>
        exact ih (i + 1) p (by simpa [processGo, hm] using h)

theorem jsIndexOr_ge (xs : List String) (i : Nat) (h : xs.length ≤ i) :
    jsIndexOr xs i = xs.headD "" := by
  unfold jsIndexOr
  rw [List.get?_eq_none.mpr h]

theorem jsIndexOr_lt (xs : List String) (i : Nat) (h : i < xs.length)
    (hne : ∀ u ∈ xs, u ≠ "") : jsIndexOr xs i = xs.getD i "" := by
  have hne' : xs.get ⟨i, h⟩ ≠ "" := hne _ (List.get_mem xs i h)
  unfold jsIndexOr
  rw [List.get?_eq_get h]
  change (if xs.get ⟨i, h⟩ = "" then xs.headD "" else xs.get ⟨i, h⟩) = xs.getD i ""
  rw [if_neg hne', List.get_eq_getElem, List.getD_eq_getElem _ _ h]

theorem waitGo_step_processing (poll : Nat → PollResult) (fuel iter : Nat)
    (st : FirecrawlJobStatus) (h : poll iter = PollResult.ok st)
    (hp : st.status = JobState.processing) :
    waitGo poll (fuel + 1) iter = waitGo poll fuel (iter + 1) := by
  simp [waitGo, h, hp]

theorem waitGo_step_completed (poll : Nat → PollResult) (fuel iter : Nat)
    (st : FirecrawlJobStatus) (d : JobData) (h : poll iter = PollResult.ok st)
    (hc : st.status = JobState.completed) (hd : st.data = some d) :
    waitGo poll (fuel + 1) iter = Except.ok (toDataArray d, iter) := by
  simp [waitGo, h, hc, hd]

theorem waitGo_timeout (q : Nat → PollResult)
    (hq : ∀ i, ∃ s, q i = PollResult.ok s ∧ s.status = JobState.processing) :
    ∀ (fuel iter : Nat), waitGo q fuel iter = Except.error JobError.timedOut := by
  intro fuel
  induction fuel with
  | zero => intro iter; rfl
  | succ n ih =>
    intro iter
    obtain ⟨s, hs, hp⟩ := hq iter
    rw [waitGo_step_processing q n iter s hs hp]
    exact ih (iter + 1)

theorem jsNumNeq_of_ne {stored : Option Rat} {p : Rat} (h : stored ≠ some p) :
    jsNumNeq (some p) stored = true := by
  cases stored with
  | none => rfl
  | some q =>
    have : p ≠ q := fun hh => h (by rw [hh])
    simp [jsNumNeq, this]

theorem ingest_insertedBatch_eq (env : IngestEnv) (urls : List String)
    (batch : List ProductRecord)
    (h : (ingestPOST env urls).insertedBatch = some batch) :
    ∃ records w, waitForFirecrawlJob env.poll = Except.ok (records, w)
      ∧ batch = (processRecords (ingestNewUrls env urls) env.now records).1 := by
  by_cases hkey : env.apiKeyConfigured
  case neg => simp [ingestPOST, hkey] at h
  by_cases hue : urls.isEmpty
  · simp [ingestPOST, hkey, hue] at h
  rcases hq : env.queryError with _ | m
  · by_cases hnewE : (ingestNewUrls env urls).isEmpty
    · simp [ingestPOST, hkey, hue, hq, hnewE] at h
    rcases hs : env.submitResult with _ | code | ⟨ok, jid⟩
    · simp [ingestPOST, hkey, hue, hq, hnewE, hs] at h
    · simp [ingestPOST, hkey, hue, hq, hnewE, hs] at h
    · by_cases hcond : (ok = false ∨ jid = "")
      · simp [ingestPOST, hkey, hue, hq, hnewE, hs, hcond] at h
      rcases hw : waitForFirecrawlJob env.poll with e | p
      · simp [ingestPOST, hkey, hue, hq, hnewE, hs, hcond, hw] at h
      obtain ⟨records, w⟩ := p
      by_cases hpe :
          (processRecords (ingestNewUrls env urls) env.now records).1.isEmpty
      · simp [ingestPOST, hkey, hue, hq, hnewE, hs, hcond, hw, hpe] at h
      rcases hi : env.insertError with _ | m
      · simp [ingestPOST, hkey, hue, hq, hnewE, hs, hcond, hw, hpe, hi] at h
        exact ⟨records, w, rfl, h.symm⟩
      · simp [ingestPOST, hkey, hue, hq, hnewE, hs, hcond, hw, hpe, hi] at h
        exact ⟨records, w, rfl, h.symm⟩
  · simp [ingestPOST, hkey, hue, hq] at h

/-! ### Claim theorems -/

/-- C5 counterexample: the claim asserts `normalizeCoolerType "2" = "Dual"`
and that `"tripple"` maps to `"Triple"`, but the batch ingest route's
function returns `"2"` unchanged, and both route versions return
`"tripple"` unchanged. -/
theorem normalizeCoolerType_claim_false :
    normalizeCoolerType "2" = "2" ∧ "2" ≠ "Dual"
      ∧ normalizeCoolerType "tripple" = "tripple"
      ∧ normalizeCoolerTypeV1 "tripple" = "tripple"
      ∧ "tripple" ≠ "Triple" := by
  refine ⟨by decide, by decide, by decide, by decide, by decide⟩

/-- C5 amended: matching is case-insensitive via lowercasing; the batch
ingest route's `normalizeCoolerType` maps only lowercase `"dual"` to
`"Dual"` and `"triple"` to `"Triple"`, returning `"2"`, `"3"`, `"tripple"`
and every other non-empty string unchanged, and the empty string to itself;
the legacy route's version additionally maps `"2"` to `"Dual"` and `"3"`
to `"Triple"` but still returns `"tripple"` unchanged. -/
theorem normalizeCoolerType_amended :
    (∀ s : String, toLowerModel s = "dual" →
        normalizeCoolerType s = "Dual" ∧ normalizeCoolerTypeV1 s = "Dual")
    ∧ (∀ s : String, toLowerModel s = "triple" →
        normalizeCoolerType s = "Triple" ∧ normalizeCoolerTypeV1 s = "Triple")
    ∧ normalizeCoolerTypeV1 "2" = "Dual" ∧ normalizeCoolerTypeV1 "3" = "Triple"
    ∧ normalizeCoolerType "2" = "2" ∧ normalizeCoolerType "3" = "3"
    ∧ normalizeCoolerType "tripple" = "tripple"
    ∧ normalizeCoolerTypeV1 "tripple" = "tripple"
    ∧ normalizeCoolerType "" = "" ∧ normalizeCoolerTypeV1 "" = ""
    ∧ (∀ s : String, s ≠ "" → toLowerModel s ≠ "dual" →
        toLowerModel s ≠ "triple" → normalizeCoolerType s = s)
    ∧ (∀ s : String, s ≠ "" → toLowerModel s ≠ "dual" →
        toLowerModel s ≠ "triple" → toLowerModel s ≠ "2" →
        toLowerModel s ≠ "3" → normalizeCoolerTypeV1 s = s) := by
  refine ⟨?_, ?_, by decide, by decide, by decide, by decide, by decide,
    by decide, by decide, by decide, ?_, ?_⟩
  · intro s h
    have hs : s ≠ "" := by
      intro he
      rw [he] at h
      exact absurd h (by decide)
    constructor
    · simp [normalizeCoolerType, hs, h]
    · simp [normalizeCoolerTypeV1, hs, h]
  · intro s h
    have hs : s ≠ "" := by
      intro he
      rw [he] at h
      exact absurd h (by decide)
    constructor
    · simp [normalizeCoolerType, hs, h]
    · simp [normalizeCoolerTypeV1, hs, h]
  · intro s h1 h2 h3
    simp [normalizeCoolerType, h1, h2, h3]
  · intro s h1 h2 h3 h4 h5
    simp [normalizeCoolerTypeV1, h1, h2, h3, h4, h5]

/-- C5 amended witness at concrete inputs. -/
theorem normalizeCoolerType_amended_witness :
    normalizeCoolerType "DUAL" = "Dual" ∧ normalizeCoolerType "dual" = "Dual"
      ∧ normalizeCoolerTypeV1 "2" = "Dual"
      ∧ normalizeCoolerType "Quad Fan" = "Quad Fan" := by
  obtain ⟨h1, h2, h3, -, -, -, -, -, -, -, h4, -⟩ := normalizeCoolerType_amended
  exact ⟨(h1 "DUAL" (by decide)).1, (h1 "dual" (by decide)).1, h3,
    h4 "Quad Fan" (by decide) (by decide) (by decide)⟩

/-- C6 counterexample: the claim says the retailer is the hostname with the
leading `"www."` prefix stripped and that an unparseable URL yields
`"unknown"`; the code removes the first occurrence of `"www."` anywhere in
the hostname (here turning `awww.example.com` into `aexample.com`), and an
unparseable URL makes `new URL` throw, so the record is reported as a
processing error instead of getting retailer `"unknown"`. -/
theorem deriveRetailer_claim_false :
    deriveRetailer "https://awww.example.com/x" = Except.ok "aexample.com"
      ∧ "aexample.com" ≠ "awww.example.com"
      ∧ mapFirecrawlToProduct exSample "notaurl" "T0"
          = Except.error "Invalid URL" := by
  refine ⟨by decide, by decide, by decide⟩

/-- C6 amended: for a parseable URL the stored retailer is the hostname
with the first occurrence of `"www."` removed (which strips a leading
`"www."` prefix in particular), falling back to `"unknown"` only when that
removal leaves the empty string; for an unparseable URL the mapping throws,
so the record is skipped with a processing error and nothing is stored. -/
theorem deriveRetailer_amended :
    deriveRetailer "https://www.newegg.com/p/123" = Except.ok "newegg.com"
    ∧ (∀ url h, parseHostname url = some h →
        deriveRetailer url =
          Except.ok
            (if replaceFirst h "www." = "" then "unknown"
             else replaceFirst h "www."))
    ∧ (∀ url, parseHostname url = none →
        ∀ ex now, mapFirecrawlToProduct ex url now = Except.error "Invalid URL") := by
  refine ⟨by decide, ?_, ?_⟩
  · intro url h hp
    simp [deriveRetailer, hp]
  · intro url hp ex now
    simp [mapFirecrawlToProduct, deriveRetailer, hp]

/-- C6 amended witness at concrete URLs. -/
theorem deriveRetailer_amended_witness :
    deriveRetailer "https://www.bestbuy.com/site/abc" = Except.ok "bestbuy.com"
      ∧ mapFirecrawlToProduct exSample "bad url" "T0"
          = Except.error "Invalid URL" := by
  have h := deriveRetailer_amended
  constructor
  · have h1 :=
      h.2.1 "https://www.bestbuy.com/site/abc" "www.bestbuy.com" (by decide)
    exact h1.trans (by decide)
  · exact h.2.2 "bad url" (by decide) exSample "T0"

/-- C7 counterexample: the daily script issues an update when the scraped
price differs, but that update writes `price`, `in_stock` and `fetched_at`
only — `updated_at` keeps its old value `"T0"` even though the operation
timestamp is `"T1"`, contradicting the claim that a price change triggers an
update with `updated_at` advanced. -/
theorem updatePrices_updatedAt_claim_false :
    (updatePricesScriptStep (some (90, true)) rowScriptSample "T1" none).2.1 = 1
      ∧ (updatePricesScriptStep (some (90, true)) rowScriptSample "T1" none).1.price = 90
      ∧ (updatePricesScriptStep (some (90, true)) rowScriptSample "T1" none).1.updated_at = "T0"
      ∧ "T0" ≠ "T1" := by
  refine ⟨by decide, by decide, by decide, by decide⟩

/-- C7 amended: in both refresh implementations, a record whose scraped
values equal the stored ones triggers no update and its row (timestamps
included) is unchanged; a changed price triggers exactly one update, which
in the admin route advances `updated_at` while leaving `fetched_at`
untouched, and in the daily script advances `fetched_at` while leaving
`updated_at` untouched. -/
theorem updatePrices_writeOnChange_amended :
    (∀ (row : RouteRow) (p : Rat) (s now : String) (uerr : Option String),
        row.price_usd = some p → jsTrim s = row.stock_status →
        updatePricesRouteStep (RouteScrape.ok (some p) (some s)) row now uerr
          = (row, 0, false))
    ∧ (∀ (row : ScriptRow) (now : String) (uerr : Option String),
        updatePricesScriptStep (some (row.price, row.in_stock)) row now uerr
          = (row, 0, false))
    ∧ (∀ (row : RouteRow) (p : Rat) (stock : Option String) (now : String),
        row.price_usd ≠ some p →
        (updatePricesRouteStep (RouteScrape.ok (some p) stock) row now none).2.1 = 1
        ∧ (updatePricesRouteStep (RouteScrape.ok (some p) stock) row now none).1.updated_at = now
        ∧ (updatePricesRouteStep (RouteScrape.ok (some p) stock) row now none).1.fetched_at
            = row.fetched_at)
    ∧ (∀ (row : ScriptRow) (p : Rat) (s : Bool) (now : String),
        p ≠ row.price →
        (updatePricesScriptStep (some (p, s)) row now none).2.1 = 1
        ∧ (updatePricesScriptStep (some (p, s)) row now none).1.fetched_at = now
        ∧ (updatePricesScriptStep (some (p, s)) row now none).1.updated_at
            = row.updated_at) := by
  refine ⟨?_, ?_, ?_, ?_⟩
  · intro row p s now uerr h1 h2
    simp [updatePricesRouteStep, jsNumNeq, h1, h2]
  · intro row now uerr
    simp [updatePricesScriptStep]
  · intro row p stock now h
    have hne : jsNumNeq (some p) row.price_usd = true := jsNumNeq_of_ne h
    simp [updatePricesRouteStep, hne]
  · intro row p s now h
    simp [updatePricesScriptStep, h]

/-- C7 amended witness at a concrete row. -/
theorem updatePrices_writeOnChange_amended_witness :
    updatePricesRouteStep (RouteScrape.ok (some 100) (some "In Stock"))
        rowRouteSample "T1" none = (rowRouteSample, 0, false)
      ∧ updatePricesScriptStep (some (100, true)) rowScriptSample "T1" none
          = (rowScriptSample, 0, false)
      ∧ (updatePricesRouteStep (RouteScrape.ok (some 90) none)
          rowRouteSample "T1" none).1.updated_at = "T1"
      ∧ (updatePricesScriptStep (some (90, true)) rowScriptSample "T1"
          none).1.fetched_at = "T1" := by
  have h := updatePrices_writeOnChange_amended
  refine ⟨h.1 rowRouteSample 100 "In Stock" "T1" none (by decide) (by decide),
    h.2.1 rowScriptSample "T1" none,
    (h.2.2.1 rowRouteSample 90 none "T1" (by decide)).2.1,
    (h.2.2.2 rowScriptSample 90 true "T1" (by decide)).2.1⟩

/-- C8 counterexample: the admin update-prices route issues an update when
the price changed, but the update writes `price_usd`, `stock_status` and
`updated_at` only — `fetched_at` keeps its old value `"T0"`, so a
successful price update through this route does not refresh `fetched_at`. -/
theorem fetchedAt_claim_false :
    (updatePricesRouteStep (RouteScrape.ok (some 90) (some "In Stock"))
        rowRouteSample "T1" none).2.1 = 1
      ∧ (updatePricesRouteStep (RouteScrape.ok (some 90) (some "In Stock"))
          rowRouteSample "T1" none).1.price_usd = some 90
      ∧ (updatePricesRouteStep (RouteScrape.ok (some 90) (some "In Stock"))
          rowRouteSample "T1" none).1.fetched_at = "T0"
      ∧ "T0" ≠ "T1" := by
  refine ⟨by decide, by decide, by decide, by decide⟩

/-- C8 amended: every record in a batch the ingest route hands to the bulk
insert carries `fetched_at` equal to the run's timestamp, and the daily
script's price update refreshes `fetched_at`; the admin update-prices
route's update advances `updated_at` but leaves `fetched_at` unchanged. -/
theorem fetchedAt_refresh_amended :
    (∀ (env : IngestEnv) (urls : List String) (batch : List ProductRecord)
        (p : ProductRecord),
        (ingestPOST env urls).insertedBatch = some batch → p ∈ batch →
        p.fetched_at = env.now)
    ∧ (∀ (row : ScriptRow) (p : Rat) (s : Bool) (now : String),
        p ≠ row.price →
        (updatePricesScriptStep (some (p, s)) row now none).1.fetched_at = now)
    ∧ (∀ (row : RouteRow) (p : Rat) (stock : Option String) (now : String),
        row.price_usd ≠ some p →
        (updatePricesRouteStep (RouteScrape.ok (some p) stock) row now
            none).1.fetched_at = row.fetched_at
        ∧ (updatePricesRouteStep (RouteScrape.ok (some p) stock) row now
            none).1.updated_at = now) := by
  refine ⟨?_, ?_, ?_⟩
  · intro env urls batch p hb hp
    obtain ⟨records, w, -, hbatch⟩ := ingest_insertedBatch_eq env urls batch hb
    rw [hbatch] at hp
    obtain ⟨ex, j, hmap⟩ :=
      processGo_mem (ingestNewUrls env urls) env.now records 0 p hp
    exact (mapFirecrawlToProduct_ok_fields hmap).1
  · intro row p s now h
    simp [updatePricesScriptStep, h]
  · intro row p stock now h
    have hne : jsNumNeq (some p) row.price_usd = true := jsNumNeq_of_ne h
    simp [updatePricesRouteStep, hne]

/-- C8 amended witness at a concrete ingest run and concrete rows. -/
theorem fetchedAt_refresh_amended_witness :
    ((mapFirecrawlToProduct exSample "https://www.newegg.com/p/1"
        "2026-10-11T00:00:00Z").toOption.getD
          (ProductRecord.mk "" false 0 "" false "" "" 0 "" "" "" "")).fetched_at
        = "2026-10-11T00:00:00Z"
      ∧ (updatePricesScriptStep (some (90, true)) rowScriptSample "T1"
          none).1.fetched_at = "T1"
      ∧ (updatePricesRouteStep (RouteScrape.ok (some 90) none) rowRouteSample
          "T1" none).1.fetched_at = "T0" := by
  have h := fetchedAt_refresh_amended
  refine ⟨?_, h.2.1 rowScriptSample 90 true "T1" (by decide), ?_⟩
  · have hrun :
        (ingestPOST
            { apiKeyConfigured := true, storeUrls := [], queryError := none,
              submitResult := SubmitResult.ok true "job-w",
              poll := fun _ =>
                PollResult.ok
                  ⟨true, JobState.completed, some (Sum.inl (some exSample))⟩,
              insertError := none, now := "2026-10-11T00:00:00Z" }
            ["https://www.newegg.com/p/1"]).insertedBatch
          = some [(mapFirecrawlToProduct exSample "https://www.newegg.com/p/1"
              "2026-10-11T00:00:00Z").toOption.getD
                (ProductRecord.mk "" false 0 "" false "" "" 0 "" "" "" "")] := by
      decide
    exact h.1 _ ["https://www.newegg.com/p/1"] _ _ hrun
      (List.mem_singleton.mpr rfl)
  · have hr := (h.2.2 rowRouteSample 90 none "T1" (by decide)).1
    exact hr.trans (by decide)

/-- C9 counterexample: an ingest run whose extracted record carries the
free-text cooler description `"Quad Fan"` succeeds and hands the bulk
insert a record whose `cooler_type` is the raw text `"Quad Fan"`, which is
neither `"Dual"` nor `"Triple"`. -/
theorem coolerType_claim_false :
    (ingestPOST envQuad ["https://www.newegg.com/p/1"]).response.success = true
      ∧ ((ingestPOST envQuad ["https://www.newegg.com/p/1"]).insertedBatch.getD
          []).map (fun p => p.cooler_type) = ["Quad Fan"]
      ∧ "Quad Fan" ≠ "Dual" ∧ "Quad Fan" ≠ "Triple" := by
  refine ⟨by decide, by decide, by decide, by decide⟩

/-- C9 amended: every record in a batch the ingest route hands to the bulk
insert has `cooler_type` equal to `normalizeCoolerType` of the extracted
value — canonical `"Dual"`/`"Triple"` when the raw value lowercases to
`"dual"`/`"triple"`, and the raw scraped text otherwise; membership in the
canonical set is requested from the upstream extraction schema, not
enforced locally. -/
theorem coolerType_amended (env : IngestEnv) (urls : List String)
    (batch : List ProductRecord) (p : ProductRecord)
    (hb : (ingestPOST env urls).insertedBatch = some batch) (hp : p ∈ batch) :
    ∃ raw, p.cooler_type = normalizeCoolerType raw := by
  obtain ⟨records, w, -, hbatch⟩ := ingest_insertedBatch_eq env urls batch hb
  rw [hbatch] at hp
  obtain ⟨ex, j, hmap⟩ :=
    processGo_mem (ingestNewUrls env urls) env.now records 0 p hp
  exact ⟨ex.cooler_type, (mapFirecrawlToProduct_ok_fields hmap).2.1⟩

/-- C9 amended witness at the concrete quad-cooler run. -/
theorem coolerType_amended_witness :
    ∃ raw,
      ((mapFirecrawlToProduct exSampleQuad "https://www.newegg.com/p/1"
          "2026-10-11T00:00:00Z").toOption.getD
            (ProductRecord.mk "" false 0 "" false "" "" 0 "" "" "" "")).cooler_type
        = normalizeCoolerType raw := by
  have hrun :
      (ingestPOST envQuad ["https://www.newegg.com/p/1"]).insertedBatch
        = some [(mapFirecrawlToProduct exSampleQuad "https://www.newegg.com/p/1"
            "2026-10-11T00:00:00Z").toOption.getD
              (ProductRecord.mk "" false 0 "" false "" "" 0 "" "" "" "")] := by
    decide
  exact coolerType_amended envQuad ["https://www.newegg.com/p/1"] _ _ hrun
    (List.mem_singleton.mpr rfl)

/-- C10: a surplus extraction record at an index at or beyond the number of
submitted new URLs is assigned the first submitted URL (the JavaScript
fallback `newUrls[i] || newUrls[0]`), so a run returning more records than
URLs hands the bulk insert a batch with repeated `url` values — here two
records both carrying the single submitted URL. -/
theorem ingest_surplusAliasing :
    (∀ (xs : List String) (i : Nat), xs.length ≤ i →
        jsIndexOr xs i = xs.headD "")
    ∧ ((ingestPOST envSurplus ["https://www.newegg.com/p/1"]).insertedBatch.getD
        []).map (fun p => p.url)
        = ["https://www.newegg.com/p/1", "https://www.newegg.com/p/1"] := by
  constructor
  · intro xs i hle
    exact jsIndexOr_ge xs i hle
  · decide

/-- C10 witness: the fallback evaluated at a concrete out-of-range index. -/
theorem ingest_surplusAliasing_witness :
    jsIndexOr ["https://www.newegg.com/p/1"] 1 = "https://www.newegg.com/p/1" := by
  have h := ingest_surplusAliasing
  exact (h.1 ["https://www.newegg.com/p/1"] 1 (by decide)).trans (by decide)

/-- C2: when the API key is configured, the duplicate-check query succeeds,
the input is non-empty and every input URL is already in the store, the
ingest run returns HTTP 400 with `success = false`, `productsAdded = 0`,
`duplicateCount` equal to the input size and the full input echoed as
`duplicateUrls`, and the extraction job service is never contacted. -/
theorem ingest_allDuplicates (env : IngestEnv) (urls : List String)
    (hkey : env.apiKeyConfigured = true)
    (hq : env.queryError = none)
    (hne : urls ≠ [])
    (hall : ∀ u ∈ urls, env.storeUrls.contains u = true) :
    (ingestPOST env urls).submitCalled = false
      ∧ (ingestPOST env urls).response.success = false
      ∧ (ingestPOST env urls).response.productsAdded = some 0
      ∧ (ingestPOST env urls).response.duplicateCount = some urls.length
      ∧ (ingestPOST env urls).response.duplicateUrls = some urls
      ∧ (ingestPOST env urls).response.httpStatus = 400 := by
  have hdup : ingestDuplicateUrls env urls = urls :=
    List.filter_eq_self.mpr hall
  have hnew : ingestNewUrls env urls = [] := by
    apply List.filter_eq_nil_iff.mpr
    intro u hu
    simpa using hall u hu
  simp [ingestPOST, hkey, hq, isEmpty_false_of_ne_nil hne, hdup, hnew]

/-- C2 witness at a concrete two-element all-duplicate input. -/
theorem ingest_allDuplicates_witness :
    (ingestPOST envAllDup
        ["https://www.newegg.com/p/1", "https://www.newegg.com/p/2"]).submitCalled
        = false
      ∧ (ingestPOST envAllDup
          ["https://www.newegg.com/p/1", "https://www.newegg.com/p/2"]).response.duplicateCount
        = some 2 := by
  have h := ingest_allDuplicates envAllDup
    ["https://www.newegg.com/p/1", "https://www.newegg.com/p/2"]
    (by decide) (by decide) (by decide) (by decide)
  exact ⟨h.1, h.2.2.2.1⟩

/-- C3: a poll sequence whose first two statuses are `processing` and whose
third is `completed` with data makes `waitForFirecrawlJob` return the
(array-normalized) payload after exactly 2 wait intervals; a sequence that
never leaves `processing` makes it return the timeout error — the loop
performs at most `maxPolls` iterations (the configured timeout divided by
the poll interval) and never runs forever. -/
theorem waitForFirecrawlJob_polling (poll q : Nat → PollResult)
    (st0 st1 st2 : FirecrawlJobStatus) (d : JobData)
    (h0 : poll 0 = PollResult.ok st0) (hp0 : st0.status = JobState.processing)
    (h1 : poll 1 = PollResult.ok st1) (hp1 : st1.status = JobState.processing)
    (h2 : poll 2 = PollResult.ok st2) (hc2 : st2.status = JobState.completed)
    (hd2 : st2.data = some d)
    (hq : ∀ i, ∃ s, q i = PollResult.ok s ∧ s.status = JobState.processing) :
    waitForFirecrawlJob poll = Except.ok (toDataArray d, 2)
      ∧ waitForFirecrawlJob q = Except.error JobError.timedOut := by
  constructor
  · show waitGo poll maxPolls 0 = _
    rw [show maxPolls = 299 + 1 from by decide,
      waitGo_step_processing poll 299 0 st0 h0 hp0,
      show (299 : Nat) = 298 + 1 from rfl,
      waitGo_step_processing poll 298 1 st1 h1 hp1,
      show (298 : Nat) = 297 + 1 from rfl]
    exact waitGo_step_completed poll 297 2 st2 d h2 hc2 hd2
  · exact waitGo_timeout q hq maxPolls 0

/-- C3 witness at concrete poll sequences. -/
theorem waitForFirecrawlJob_polling_witness :
    waitForFirecrawlJob pollSeqPPC
        = Except.ok ([some exSample, some exSampleB], 2)
      ∧ waitForFirecrawlJob pollSeqForever
          = Except.error JobError.timedOut := by
  exact waitForFirecrawlJob_polling pollSeqPPC pollSeqForever
    ⟨true, JobState.processing, none⟩ ⟨true, JobState.processing, none⟩
    ⟨true, JobState.completed, some (Sum.inr [some exSample, some exSampleB])⟩
    (Sum.inr [some exSample, some exSampleB])
    (by decide) rfl (by decide) rfl (by decide) rfl rfl
    (fun i => ⟨⟨true, JobState.processing, none⟩, rfl, rfl⟩)

/-- C1: when duplicate filtering leaves at least one new URL, submission and
polling succeed, and the poll returns a record list of which exactly `k`
entries (with `1 ≤ k < n`) are malformed while every well-formed entry maps
successfully and the bulk insert succeeds, the ingest response has
`success = true`, `productsAdded = n - k` and an errors list of exactly `k`
entries. -/
theorem ingest_partialSuccess (env : IngestEnv) (urls : List String)
    (records : List RawRecord) (w k : Nat) (jid : String)
    (hkey : env.apiKeyConfigured = true)
    (hq : env.queryError = none)
    (hurls : urls ≠ [])
    (hnew : ingestNewUrls env urls ≠ [])
    (hsub : env.submitResult = SubmitResult.ok true jid)
    (hid : jid ≠ "")
    (hpoll : waitForFirecrawlJob env.poll = Except.ok (records, w))
    (hk : records.countP (fun r => r.isNone) = k)
    (hk1 : 1 ≤ k)
    (hkn : k < records.length)
    (hmap : mapAllOk (ingestNewUrls env urls) env.now records 0 = true)
    (hins : env.insertError = none) :
    (ingestPOST env urls).response.success = true
      ∧ (ingestPOST env urls).response.productsAdded
          = some (records.length - k)
      ∧ ∃ es, (ingestPOST env urls).response.errors = some es
          ∧ es.length = k := by
  obtain ⟨herr, hprod⟩ :=
    processGo_counts (ingestNewUrls env urls) env.now records 0 hmap
  rw [hk] at herr hprod
  have hpne : (processGo (ingestNewUrls env urls) env.now records 0).1 ≠ [] := by
    intro hp0
    rw [hp0] at hprod
    simp at hprod
    omega
  have hene : (processGo (ingestNewUrls env urls) env.now records 0).2 ≠ [] := by
    intro he0
    rw [he0] at herr
    simp at herr
    omega
  simp [ingestPOST, hkey, hq, isEmpty_false_of_ne_nil hurls,
    isEmpty_false_of_ne_nil hnew, hsub, hid, hpoll, hins, processRecords,
    isEmpty_false_of_ne_nil hpne, isEmpty_false_of_ne_nil hene, hprod, herr]

/-- C1 witness: three returned records with one malformed yields
`productsAdded = 2`, one error and overall success. -/
theorem ingest_partialSuccess_witness :
    (ingestPOST envPartial urlsPartial).response.success = true
      ∧ (ingestPOST envPartial urlsPartial).response.productsAdded = some 2
      ∧ ∃ es, (ingestPOST envPartial urlsPartial).response.errors = some es
          ∧ es.length = 1 := by
  have h := ingest_partialSuccess envPartial urlsPartial
    [some exSample, none, some exSampleB] 0 1 "job-1"
    (by decide) (by decide) (by decide) (by decide) (by decide) (by decide)
    (by decide) (by decide) (by decide) (by decide) (by decide) (by decide)
  exact h

/-- C4 counterexample: an ingest run submitting two new URLs whose
extraction job returns a single valid record succeeds with
`productsAdded = 1` and NO errors field — the surplus submitted URL is
silently dropped, not reported as a processing error as the claim
states. -/
theorem ingest_shortResult_claim_false :
    (ingestPOST envShort urlsShort).response.success = true
      ∧ (ingestPOST envShort urlsShort).response.productsAdded = some 1
      ∧ (ingestPOST envShort urlsShort).response.errors = none
      ∧ urlsShort.length = 2 := by
  refine ⟨by decide, by decide, by decide, by decide⟩

/-- C4 amended: when the extraction job returns fewer records than the
submitted new URLs, the mapping loop stays in bounds — record `i` is paired
with the `i`-th new URL with no fallback — and the surplus submitted URLs
are silently dropped: with all returned records valid and mapping cleanly,
the response carries no errors field and `productsAdded` equal to the
returned-record count, not the submitted count. -/
theorem ingest_shortResult_amended (env : IngestEnv) (urls : List String)
    (records : List RawRecord) (w : Nat) (jid : String)
    (hkey : env.apiKeyConfigured = true)
    (hq : env.queryError = none)
    (hurls : urls ≠ [])
    (hnew : ingestNewUrls env urls ≠ [])
    (hsub : env.submitResult = SubmitResult.ok true jid)
    (hid : jid ≠ "")
    (hpoll : waitForFirecrawlJob env.poll = Except.ok (records, w))
    (hshort : records.length ≤ (ingestNewUrls env urls).length)
    (hrne : records ≠ [])
    (hvalid : records.countP (fun r => r.isNone) = 0)
    (hmap : mapAllOk (ingestNewUrls env urls) env.now records 0 = true)
    (hins : env.insertError = none)
    (hneU : ∀ u ∈ ingestNewUrls env urls, u ≠ "") :
    (∀ i, i < records.length →
        jsIndexOr (ingestNewUrls env urls) i
          = (ingestNewUrls env urls).getD i "")
      ∧ (ingestPOST env urls).response.errors = none
      ∧ (ingestPOST env urls).response.productsAdded = some records.length
      ∧ (ingestPOST env urls).response.success = true := by
  obtain ⟨herr, hprod⟩ :=
    processGo_counts (ingestNewUrls env urls) env.now records 0 hmap
  rw [hvalid] at herr hprod
  have hene : (processGo (ingestNewUrls env urls) env.now records 0).2 = [] :=
    List.length_eq_zero.mp herr
  have hpne : (processGo (ingestNewUrls env urls) env.now records 0).1 ≠ [] := by
    intro hp0
    rw [hp0] at hprod
    simp at hprod
    exact hrne (List.length_eq_zero.mp hprod.symm)
  refine ⟨?_, ?_⟩
  · intro i hi
    exact jsIndexOr_lt _ i (lt_of_lt_of_le hi hshort) hneU
  · simp [ingestPOST, hkey, hq, isEmpty_false_of_ne_nil hurls,
      isEmpty_false_of_ne_nil hnew, hsub, hid, hpoll, hins, processRecords,
      isEmpty_false_of_ne_nil hpne, hene, hprod]

/-- C4 amended witness at the concrete short-result run. -/
theorem ingest_shortResult_amended_witness :
    jsIndexOr (ingestNewUrls envShort urlsShort) 0
        = (ingestNewUrls envShort urlsShort).getD 0 ""
      ∧ (ingestPOST envShort urlsShort).response.errors = none
      ∧ (ingestPOST envShort urlsShort).response.productsAdded = some 1
      ∧ (ingestPOST envShort urlsShort).response.success = true := by
  have h := ingest_shortResult_amended envShort urlsShort [some exSample] 0
    "job-2" (by decide) (by decide) (by decide) (by decide) (by decide)
    (by decide) (by decide) (by decide) (by decide) (by decide) (by decide)
    (by decide) (by decide)
  exact ⟨h.1 0 (by decide), h.2⟩
